import Mathlib

/-!
Verification of `gae_dashboard/email_bq_data.py`.

This file is a shallow embedding of the pure core of the script: the table
shaper (`_convert_table_rows_to_lists`), the sparkline renderer
(`_render_sparkline`, up to the gnuplot subprocess boundary), the snapshot
store (`_get_data_filename` / `_get_past_data` / `_save_daily_data`, with the
filesystem modelled as a map from filename to pickled contents and the pickle
round-trip modelled as the identity), the history aggregator
(`_process_past_data`), the per-report munging pipelines, and the HTML body
construction of `_send_email` / `_embed_images_to_mime`.

Modelling conventions:
* Python 2 floats are modelled as exact rationals; the properties checked
  concern the arithmetic formulas of the source, not binary rounding.
* A Python dict is an association list with unique keys; `dict.get`,
  item assignment and `del` are embedded directly.
* Fallible Python code (KeyError, ValueError, TypeError, ZeroDivisionError)
  is embedded in `Except PyError`.
* Calendar dates are modelled as integer day numbers; `strftime("%Y%m%d")`
  is modelled by the decimal rendering of the day number, an injective
  stand-in for the calendar formatting (one distinct string per day).
-/

namespace EmailBq

open scoped List

set_option maxRecDepth 8000

/-- Decidable equality for `ℚ` by comparing the normal-form numerator and
denominator (the library's derived instance reduces poorly under kernel
evaluation of concrete pipeline outputs). -/
instance ratDecEqNumDen : DecidableEq ℚ := fun a b =>
  if h : a.num = b.num ∧ a.den = b.den then
    isTrue (by rcases a with ⟨n1, d1⟩; rcases b with ⟨n2, d2⟩; cases h.1; cases h.2; rfl)
  else isFalse (fun he => h (by cases he; exact ⟨rfl, rfl⟩))

/-- A Python value as it appears in a bigquery result row or in a munged
table cell: an int, a float (modelled as an exact rational), a string, or a
sparkline series (a list of numeric-or-`None` samples, as built by the
`sparkline_data` loops of the reports). -/
inductive Value where
  | int (n : ℤ)
  | num (q : ℚ)
  | str (s : String)
  | series (l : List (Option ℚ))

instance valueDecEq : DecidableEq Value := fun a b =>
  match a, b with
  | Value.int m, Value.int n =>
    if h : m = n then isTrue (by rw [h]) else isFalse (by simpa using h)
  | Value.num p, Value.num q =>
    if h : p = q then isTrue (by rw [h]) else isFalse (by simpa using h)
  | Value.str s, Value.str t =>
    if h : s = t then isTrue (by rw [h]) else isFalse (by simpa using h)
  | Value.series l1, Value.series l2 =>
    if h : l1 = l2 then isTrue (by rw [h]) else isFalse (by simpa using h)
  | Value.int _, Value.num _ => isFalse (fun h => Value.noConfusion h)
  | Value.int _, Value.str _ => isFalse (fun h => Value.noConfusion h)
  | Value.int _, Value.series _ => isFalse (fun h => Value.noConfusion h)
  | Value.num _, Value.int _ => isFalse (fun h => Value.noConfusion h)
  | Value.num _, Value.str _ => isFalse (fun h => Value.noConfusion h)
  | Value.num _, Value.series _ => isFalse (fun h => Value.noConfusion h)
  | Value.str _, Value.int _ => isFalse (fun h => Value.noConfusion h)
  | Value.str _, Value.num _ => isFalse (fun h => Value.noConfusion h)
  | Value.str _, Value.series _ => isFalse (fun h => Value.noConfusion h)
  | Value.series _, Value.int _ => isFalse (fun h => Value.noConfusion h)
  | Value.series _, Value.num _ => isFalse (fun h => Value.noConfusion h)
  | Value.series _, Value.str _ => isFalse (fun h => Value.noConfusion h)

/-- The Python exceptions the embedded code can raise. -/
inductive PyError where
  | valueError
  | keyError
  | typeError
  | zeroDivision
deriving DecidableEq

deriving instance DecidableEq for Except

/-- A bigquery row / report record: a Python dict from field name to value
(`row` in the source), modelled as an association list whose keys are unique
in any dict built by the code. -/
abbrev Record := List (String × Value)

/-- Python `row[k]` read access returning `none` for a missing key
(the first binding wins; dict keys are unique). -/
def rlookup : Record → String → Option Value
  | [], _ => none
  | p :: ps, k => if p.1 = k then some p.2 else rlookup ps k

/-- Python `row[k] = v` item assignment on a dict: replace the binding in
place if the key exists, else append a new binding. -/
def rset : Record → String → Value → Record
  | [], k, v => [(k, v)]
  | p :: ps, k, v => if p.1 = k then (k, v) :: ps else p :: rset ps k v

/-- Python `del row[k]`. -/
def rdel : Record → String → Record
  | [], _ => []
  | p :: ps, k => if p.1 = k then rdel ps k else p :: rdel ps k

/-- Python `d.get(k)` on a history index (a dict keyed by a report-specific
key), returning `None` for a missing key. -/
def dget {K : Type} [DecidableEq K] : List (K × Record) → K → Option Record
  | [], _ => none
  | p :: ps, k => if p.1 = k then some p.2 else dget ps k

/-- Python dict item assignment for a history index: replace in place or
append. -/
def dinsert {K : Type} [DecidableEq K] : List (K × Record) → K → Record → List (K × Record)
  | [], k, r => [(k, r)]
  | p :: ps, k, r => if p.1 = k then (k, r) :: ps else p :: dinsert ps k r

/-- The dict comprehension `{keyfn(row): row for row in old_data}` of
`_process_past_data`: built left to right, so the last row with a given key
wins. -/
def dictOfRows {K : Type} [DecidableEq K] (keyfn : Record → K) (rows : List Record) :
    List (K × Record) :=
  rows.foldl (fun m r => dinsert m (keyfn r) r) []

/-- Best-effort numeric view of a value, as used wherever the Python code
does arithmetic on a field (`row['instance_hours'] / total`, ...).  A
non-numeric operand is a `TypeError` at the call sites. -/
def toQ : Value → Option ℚ
  | Value.int n => some (n : ℚ)
  | Value.num q => some q
  | _ => none

/-- `row[k]` in a numeric context: `KeyError` if the field is missing,
`TypeError` if it is not a number. -/
def getNum (r : Record) (k : String) : Except PyError ℚ :=
  match rlookup r k with
  | none => Except.error PyError.keyError
  | some v =>
    match toQ v with
    | some q => Except.ok q
    | none => Except.error PyError.typeError

/-- Python division: `ZeroDivisionError` on a zero denominator.  (Both
division sites of the reports have a float numerator, so Python 2 true
division applies; integer floor division is never exercised by the claims
checked here.) -/
def pydiv (a b : ℚ) : Except PyError ℚ :=
  if b = 0 then Except.error PyError.zeroDivision else Except.ok (a / b)

/-- Python `max` over a nonempty list of numbers (`max(existing_data)` in
`_render_sparkline`); the `[]` case is unreachable at the call site, which
guards on at least 3 samples. -/
def pymax : List ℚ → ℚ
  | [] => 0
  | [x] => x
  | x :: y :: rest => max x (pymax (y :: rest))

/-- The gnuplot script built by `_render_sparkline`, kept as structured
data at the subprocess boundary: the y-range, the x-range, and the data
lines (`none` for the empty line emitted for an absent sample, `some (i, v)`
for the line `"i v"` emitted for a present sample at 0-based position `i`). -/
structure GnuplotScript where
  dataLines : List (Option (ℕ × ℚ))
  ymax : ℚ
  ymin : ℚ
  xmin : ℤ
  xmax : ℤ

instance gnuplotDecEq : DecidableEq GnuplotScript := fun a b =>
  if h : a.dataLines = b.dataLines ∧ a.ymax = b.ymax ∧ a.ymin = b.ymin ∧
      a.xmin = b.xmin ∧ a.xmax = b.xmax then
    isTrue (by
      rcases a with ⟨d1, y1, z1, x1, w1⟩
      rcases b with ⟨d2, y2, z2, x2, w2⟩
      obtain ⟨h1, h2, h3, h4, h5⟩ := h
      cases h1; cases h2; cases h3; cases h4; cases h5
      rfl)
  else isFalse (fun he => h (by cases he; exact ⟨rfl, rfl, rfl, rfl, rfl⟩))

/-- `_render_sparkline` up to the subprocess boundary: `none` is the
"insufficient data" outcome (the gnuplot subprocess is only started once a
script has been built, so `none` also means the external pipeline is never
invoked). -/
def _render_sparkline (data : List (Option ℚ)) : Option GnuplotScript :=
  let existing_data := data.filterMap id
  if existing_data.length < 3 then none
  else some
    { dataLines := data.enum.map (fun p => p.2.map (fun v => (p.1, v)))
      ymax := (1.05 : ℚ) * pymax existing_data
      ymin := (-0.05 : ℚ) * pymax existing_data
      xmin := 1
      xmax := (data.length : ℤ) }

/-- `_get_data_filename`: `report + '_' + yyyymmdd + '.pickle'`, with the
date rendered from its day number. -/
def _get_data_filename (report : String) (d : ℤ) : String :=
  report ++ "_" ++ toString d ++ ".pickle"

/-- The filesystem under `_DATA_DIRECTORY`: a map from filename to the
pickled record list, `none` when the file does not exist. -/
abbrev Store := String → Option (List Record)

/-- `_get_past_data`: `None` when the file does not exist, else the
unpickled contents. -/
def _get_past_data (fs : Store) (report : String) (d : ℤ) : Option (List Record) :=
  fs (_get_data_filename report d)

/-- `_save_daily_data`: clobbers any existing file for the same
(report, date) key. -/
def _save_daily_data (fs : Store) (data : List Record) (report : String) (d : ℤ) : Store :=
  fun name => if name = _get_data_filename report d then some data else fs name

/-- One day's history index as built in the loop body of
`_process_past_data`: the dict comprehension keyed by `keyfn` when the day
has (non-empty) saved data, the empty dict otherwise (`if old_data:` is
false both for a missing file and for an empty unpickled list). -/
def day_index {K : Type} [DecidableEq K] (fs : Store) (report : String)
    (keyfn : Record → K) (d : ℤ) : List (K × Record) :=
  match _get_past_data fs report d with
  | some old_data => if old_data.isEmpty then [] else dictOfRows keyfn old_data
  | none => []

/-- `_process_past_data`: fetch offsets `0..history_length` walking backward
from the anchor, then reverse, so the result is ordered oldest day first. -/
def _process_past_data {K : Type} [DecidableEq K] (fs : Store) (report : String)
    (end_date : ℤ) (history_length : ℕ) (keyfn : Record → K) :
    List (List (K × Record)) :=
  ((List.range (history_length + 1)).map
    (fun i : ℕ => day_index fs report keyfn (end_date - (i : ℤ)))).reverse

/-- The decorate step of `row_contents.sort(key=lambda (k, v): order.index(k))`:
`order.index(k)` is the position of the first occurrence of `k` in `order`
and raises `ValueError` when `k` is not listed (CPython computes the key of
every item before comparing any, so a missing key raises regardless of the
sort's progress). -/
def rowToKeyed (order : List String) : Record → Except PyError (List (ℕ × Value))
  | [] => Except.ok []
  | kv :: rest =>
    if kv.1 ∈ order then
      match rowToKeyed order rest with
      | Except.ok l => Except.ok ((order.indexOf kv.1, kv.2) :: l)
      | Except.error e => Except.error e
    else Except.error PyError.valueError

/-- The comparison used by the sort step of `_convert_table_rows_to_lists`:
compare decorated items by their position in `order`. -/
def idxLe (p q : ℕ × Value) : Prop := p.1 ≤ q.1

instance : DecidableRel idxLe := fun p q => inferInstanceAs (Decidable (p.1 ≤ q.1))

instance : IsTotal (ℕ × Value) idxLe := ⟨fun a b => Nat.le_total a.1 b.1⟩

instance : IsTrans (ℕ × Value) idxLe := ⟨fun _ _ _ h1 h2 => Nat.le_trans h1 h2⟩

/-- The sort step: sort the decorated items by their position in `order`
(the positions of distinct dict keys are distinct, so any correct sort,
Python's stable timsort included, yields the same list). -/
def sortByIdx (l : List (ℕ × Value)) : List (ℕ × Value) :=
  List.insertionSort idxLe l

/-- One iteration of the loop of `_convert_table_rows_to_lists`:
decorate, sort, and keep the values. -/
def convertRow (order : List String) (row : Record) : Except PyError (List Value) :=
  match rowToKeyed order row with
  | Except.ok keyed => Except.ok ((sortByIdx keyed).map Prod.snd)
  | Except.error e => Except.error e

/-- The loop of `_convert_table_rows_to_lists` over all rows; an exception
raised on any row propagates out of the function. -/
def convertRows (order : List String) : List Record → Except PyError (List (List Value))
  | [] => Except.ok []
  | r :: rs =>
    match convertRow order r with
    | Except.ok v =>
      match convertRows order rs with
      | Except.ok vs => Except.ok (v :: vs)
      | Except.error e => Except.error e
    | Except.error e => Except.error e

/-- `_convert_table_rows_to_lists`: convert each dict row to a list ordered
by `order`, then insert `list(order)` as a header row at the top (header
strings are values in the heterogeneous Python result list). -/
def _convert_table_rows_to_lists (table : List Record) (order : List String) :
    Except PyError (List (List Value)) :=
  match convertRows order table with
  | Except.ok rows => Except.ok ((order.map Value.str) :: rows)
  | Except.error e => Except.error e

/-! ### The instance-hours report (`email_instance_hours`)

The external bigquery call is an input (`data`); the filesystem is an input
(`fs`).  The key function `lambda row: row['url_route']` is modelled as the
total function `ih_keyfn` with key type `Option Value`: a *stored* record
lacking the field gets the key `none` (in Python it would raise `KeyError`
inside the dict comprehension; no claim and no report data exercises that
case, and the current-day rows looked up against the index always have the
field or fail with `KeyError` in the munge loop below). -/

/-- The key function of the instance-hours (and rpc) report. -/
def ih_keyfn (r : Record) : Option Value := rlookup r "url_route"

/-- The `total_instance_hours` accumulation loop. -/
def sum_instance_hours : List Record → Except PyError ℚ
  | [] => Except.ok 0
  | r :: rs => do
    let x ← getNum r "instance_hours"
    let s ← sum_instance_hours rs
    Except.ok (x + s)

/-- The inner `sparkline_data` loop of `email_instance_hours`: for each
historical day, the per-request rate of the row's route if the day's index
has a (truthy, i.e. non-empty) record for it, else `None`. -/
def ih_sparkline : List (List (Option Value × Record)) → Value → Except PyError (List (Option ℚ))
  | [], _ => Except.ok []
  | old_data :: rest, route => do
    let s ← (match dget old_data (some route) with
      | some old_row =>
        if old_row.isEmpty then Except.ok (none : Option ℚ)
        else do
          let ih ← getNum old_row "instance_hours"
          let c ← getNum old_row "count_"
          let q ← pydiv ih c
          Except.ok (some q)
      | none => Except.ok (none : Option ℚ))
    let tl ← ih_sparkline rest route
    Except.ok (s :: tl)

/-- The munge step of `email_instance_hours` for one row: add
`'%% of total'` (a literal two-percent-sign key in the source, unescaped
later by the deferred `%` substitution of `_embed_images_to_mime`),
`'per 1k requests'`, and the sparkline column. -/
def ih_munge_row (historical : List (List (Option Value × Record))) (total : ℚ)
    (row : Record) : Except PyError Record := do
  let ih ← getNum row "instance_hours"
  let q1 ← pydiv ih total
  let row1 := rset row "%% of total" (Value.num (q1 * 100))
  let c ← getNum row1 "count_"
  let q2 ← pydiv ih c
  let row2 := rset row1 "per 1k requests" (Value.num (q2 * 1000))
  let route ← (match rlookup row2 "url_route" with
    | some v => Except.ok v
    | none => Except.error PyError.keyError)
  let spark ← ih_sparkline historical route
  Except.ok (rset row2 "last 2 weeks (per request)" (Value.series spark))

/-- The munge loop of `email_instance_hours` over all rows. -/
def ih_munge (historical : List (List (Option Value × Record))) (total : ℚ) :
    List Record → Except PyError (List Record)
  | [] => Except.ok []
  | r :: rs => do
    let r2 ← ih_munge_row historical total r
    let rest ← ih_munge historical total rs
    Except.ok (r2 :: rest)

/-- The `_ORDER` tuple of `email_instance_hours`. -/
def ORDER_ih : List String :=
  ["%% of total", "instance_hours", "count_", "per 1k requests",
   "last 2 weeks (per request)", "url_route"]

/-- `email_instance_hours` from the query result to the shaped table:
save the day's snapshot, collect 14 days of history, munge, shape. -/
def email_instance_hours_shaped (fs : Store) (date : ℤ) (data : List Record) :
    Except PyError (List (List Value)) := do
  let fs1 := _save_daily_data fs data "instance_hours" date
  let historical := _process_past_data fs1 "instance_hours" date 14 ih_keyfn
  let total ← sum_instance_hours data
  let munged ← ih_munge historical total data
  _convert_table_rows_to_lists munged ORDER_ih

/-- The table `email_instance_hours` actually emails: `data[:50]`, the
slice being applied to the shaped table whose first row is the header. -/
def email_instance_hours_emailed (fs : Store) (date : ℤ) (data : List Record) :
    Except PyError (List (List Value)) :=
  (email_instance_hours_shaped fs date data).map (fun t => t.take 50)

/-! ### The RPC report (`email_rpcs`) -/

/-- `rpc_fields` of `email_rpcs`. -/
def rpc_fields : List String := ["Get", "Put", "Next", "RunQuery", "Delete"]

/-- `micropennies` of `email_rpcs`. -/
def micropennies : String := "&mu;&cent;"

/-- The `for stat in rpc_fields` loop of the munge step:
`row['%s/req' % stat] = row['rpc_%s' % stat] * 1.0 / row['requests']`. -/
def rpc_stat_loop : List String → Record → Except PyError Record
  | [], row => Except.ok row
  | stat :: rest, row => do
    let v ← getNum row ("rpc_" ++ stat)
    let req ← getNum row "requests"
    let q ← pydiv (v * 1) req
    rpc_stat_loop rest (rset row (stat ++ "/req") (Value.num q))

/-- The `sparkline_data` loop of `email_rpcs`: a sample is present only if
the day's index has a truthy record for the route *and* that record has an
`rpc_cost` field (`if old_row and 'rpc_cost' in old_row`). -/
def rpc_sparkline : List (List (Option Value × Record)) → Value → Except PyError (List (Option ℚ))
  | [], _ => Except.ok []
  | old_data :: rest, route => do
    let s ← (match dget old_data (some route) with
      | some old_row =>
        if old_row.isEmpty then Except.ok (none : Option ℚ)
        else
          match rlookup old_row "rpc_cost" with
          | some _ => do
            let cost ← getNum old_row "rpc_cost"
            let req ← getNum old_row "requests"
            let q ← pydiv (cost * 1) req
            Except.ok (some q)
          | none => Except.ok (none : Option ℚ)
      | none => Except.ok (none : Option ℚ))
    let tl ← rpc_sparkline rest route
    Except.ok (s :: tl)

/-- The munge step of `email_rpcs` for one row: per-request stats, the
micropenny-per-request rate, the dollar cost, the sparkline column, and
finally `del row['rpc_cost']`. -/
def rpc_munge_row (historical : List (List (Option Value × Record))) (row : Record) :
    Except PyError Record := do
  let row1 ← rpc_stat_loop rpc_fields row
  let cost ← getNum row1 "rpc_cost"
  let req ← getNum row1 "requests"
  let q ← pydiv (cost * 1) req
  let row2 := rset row1 (micropennies ++ "/req") (Value.num q)
  let row3 := rset row2 "$" (Value.num (cost * (1 / 100000000)))
  let route ← (match rlookup row3 "url_route" with
    | some v => Except.ok v
    | none => Except.error PyError.keyError)
  let spark ← rpc_sparkline historical route
  let row4 := rset row3 ("last 2 weeks (" ++ micropennies ++ "/req)") (Value.series spark)
  Except.ok (rdel row4 "rpc_cost")

/-- The munge loop of `email_rpcs` over all rows. -/
def rpc_munge (historical : List (List (Option Value × Record))) :
    List Record → Except PyError (List Record)
  | [] => Except.ok []
  | r :: rs => do
    let r2 ← rpc_munge_row historical r
    let rest ← rpc_munge historical rs
    Except.ok (r2 :: rest)

/-- The `_ORDER` list of `email_rpcs`. -/
def ORDER_rpc : List String :=
  ["url_route", "requests", "$", micropennies ++ "/req",
   "last 2 weeks (" ++ micropennies ++ "/req)"] ++
  rpc_fields.map (fun f => "rpc_" ++ f) ++
  rpc_fields.map (fun f => f ++ "/req")

/-- `email_rpcs` from the query result to the shaped table. -/
def email_rpcs_shaped (fs : Store) (date : ℤ) (data : List Record) :
    Except PyError (List (List Value)) := do
  let fs1 := _save_daily_data fs data "rpcs" date
  let historical := _process_past_data fs1 "rpcs" date 14 ih_keyfn
  let munged ← rpc_munge historical data
  _convert_table_rows_to_lists munged ORDER_rpc

/-- The table `email_rpcs` actually emails: `data[:75]`, sliced after
shaping. -/
def email_rpcs_emailed (fs : Store) (date : ℤ) (data : List Record) :
    Except PyError (List (List Value)) :=
  (email_rpcs_shaped fs date data).map (fun t => t.take 75)

/-! ### The out-of-memory report (`email_out_of_memory_errors`) -/

/-- The `sparkline_data` loop shared by the two halves of
`email_out_of_memory_errors` (lines 491-505 keyed by `module_id`, lines
529-543 keyed by `(module_id, url_route)`): the historical `count_` when
the day's index has a truthy record for the key, `0` when the day's index
is truthy (non-empty) but lacks the key, `None` when the day's index is
empty.  Sparkline samples are rationals, so a non-numeric `count_` is
modelled as a `TypeError` (the renderer would choke on it downstream); a
missing `count_` is the `KeyError` Python raises. -/
def oom_sample {K : Type} [DecidableEq K] (old_data : List (K × Record)) (key : K) :
    Except PyError (Option ℚ) :=
  match dget old_data key with
  | some old_row =>
    if old_row.isEmpty then
      (if old_data.isEmpty then Except.ok (none : Option ℚ) else Except.ok (some (0 : ℚ)))
    else
      match rlookup old_row "count_" with
      | some v =>
        match toQ v with
        | some q => Except.ok (some q)
        | none => Except.error PyError.typeError
      | none => Except.error PyError.keyError
  | none =>
    if old_data.isEmpty then Except.ok (none : Option ℚ) else Except.ok (some (0 : ℚ))

/-- The per-day iteration of the loop, threading the first raised exception
out of the loop. -/
def oom_sparkline_data {K : Type} [DecidableEq K] :
    List (List (K × Record)) → K → Except PyError (List (Option ℚ))
  | [], _ => Except.ok []
  | old_data :: rest, key =>
    match oom_sample old_data key, oom_sparkline_data rest key with
    | Except.ok s, Except.ok tl => Except.ok (s :: tl)
    | Except.error e, _ => Except.error e
    | Except.ok _, Except.error e => Except.error e

/-- The by-module munge step of `email_out_of_memory_errors` for one row:
look up the row's `module_id` and attach the `'last 2 weeks'` sparkline. -/
def oom_module_munge_row (historical : List (List (Option Value × Record))) (row : Record) :
    Except PyError Record := do
  let m ← (match rlookup row "module_id" with
    | some v => Except.ok (some v)
    | none => Except.error PyError.keyError)
  let spark ← oom_sparkline_data historical m
  Except.ok (rset row "last 2 weeks" (Value.series spark))

/-- The by-route munge step of `email_out_of_memory_errors` for one row:
keyed by the `(module_id, url_route)` pair. -/
def oom_route_munge_row
    (historical : List (List ((Option Value × Option Value) × Record))) (row : Record) :
    Except PyError Record := do
  let m ← (match rlookup row "module_id" with
    | some v => Except.ok v
    | none => Except.error PyError.keyError)
  let r ← (match rlookup row "url_route" with
    | some v => Except.ok v
    | none => Except.error PyError.keyError)
  let spark ← oom_sparkline_data historical (some m, some r)
  Except.ok (rset row "last 2 weeks" (Value.series spark))

/-! ### Concrete scenario inputs -/

/-- A query-result row of the instance-hours report (the query returns an
integer `count_`, a string `url_route`, and a float `instance_hours`). -/
def ih_demo_row (route : String) (ih : ℚ) (c : ℤ) : Record :=
  [("count_", Value.int c), ("url_route", Value.str route), ("instance_hours", Value.num ih)]

/-- The three-record snapshot of the end-to-end scenario of claim C6. -/
def ih_demo_data : List Record :=
  [ih_demo_row "/a" 10 100, ih_demo_row "/b" 5 50, ih_demo_row "/c" 2 10]

/-- Fifty query-result rows, used to exercise the truncation policy. -/
def ih_many_data : List Record :=
  (List.range 50).map (fun i =>
    [("count_", Value.int 1), ("url_route", Value.int (i : ℤ)),
     ("instance_hours", Value.num 1)])

/-- The shaped data rows the instance-hours pipeline produces from
`ih_demo_data` on an empty prior filesystem (the day's own snapshot, saved
just before history collection, supplies the single present sparkline
sample). -/
def ih_demo_rows : List (List Value) :=
  [[Value.num (1000 / 17), Value.num 10, Value.int 100, Value.num 100,
    Value.series (List.replicate 14 none ++ [some (1 / 10)]), Value.str "/a"],
   [Value.num (500 / 17), Value.num 5, Value.int 50, Value.num 100,
    Value.series (List.replicate 14 none ++ [some (1 / 10)]), Value.str "/b"],
   [Value.num (200 / 17), Value.num 2, Value.int 10, Value.num 200,
    Value.series (List.replicate 14 none ++ [some (1 / 5)]), Value.str "/c"]]

/-! ### The HTML body construction of `_send_email` (claim C10)

`_send_email` builds the body as a list of string pieces joined by
newlines; every dynamic piece is produced by an *immediate* `%` format
(`'<h3>%s</h3>' % heading`, `'<td style="%s">%s</td>' % (style, col)`), so
any `%` characters of the substituted values survive into the body.  The
single deferred placeholder is the literal `'%s'` a successfully rendered
sparkline cell leaves behind for `_embed_images_to_mime`, which later runs
`html % tuple(image_tags)`. -/

/-- Decimal digit characters (the alphabet of Python's `str` for numbers
modelled here; no digit is a `%`). -/
def digitChar : ℕ → Char
  | 0 => '0'
  | 1 => '1'
  | 2 => '2'
  | 3 => '3'
  | 4 => '4'
  | 5 => '5'
  | 6 => '6'
  | 7 => '7'
  | 8 => '8'
  | _ => '9'

/-- The decimal digits of a natural number, most significant first. -/
def natDigits (n : ℕ) : List Char :=
  if _h : n < 10 then [digitChar n]
  else natDigits (n / 10) ++ [digitChar (n % 10)]
termination_by n
decreasing_by exact Nat.div_lt_self (by omega) (by omega)

/-- Python `str` of an int (the `'%s' % col` rendering of an integer cell):
an optional sign and decimal digits. -/
def pyStrInt (n : ℤ) : String :=
  ⟨(if n < 0 then ['-'] else []) ++ natDigits n.natAbs⟩

/-- The `'%.2f' % col` rendering of a float cell, modelled as the decimal
rendering of the truncated two-decimal value.  The C library's exact
rounding mode is immaterial here: only the character inventory (sign,
digits, dot — never a `%`) matters to the claims proved about the body. -/
def format2f (q : ℚ) : String :=
  ⟨(if q < 0 then ['-'] else []) ++
    natDigits ((100 * q.num.natAbs) / q.den / 100) ++
    '.' :: [digitChar ((100 * q.num.natAbs) / q.den / 10 % 10),
            digitChar ((100 * q.num.natAbs) / q.den % 10)]⟩

/-- Python `sep.join(pieces)`. -/
def joinSep (sep : String) : List String → String
  | [] => ""
  | [s] => s
  | s :: rest => s ++ sep ++ joinSep sep rest

/-- Python `str` of a header cell value (headers go through `'%s'`
immediately): strings verbatim, numbers as decimal text, series with
Python's list syntax.  The numeric renderings are stand-ins whose exact
digits are immaterial; none can contain a `%`. -/
def pyStr : Value → String
  | Value.str s => s
  | Value.int n => pyStrInt n
  | Value.num q => format2f q
  | Value.series l =>
    "[" ++ joinSep ", "
      (l.map (fun o => match o with
        | none => "None"
        | some q => format2f q)) ++ "]"

/-- The `<td>` piece emitted for one data cell, together with the rendered
sparkline image when the cell is a series whose rendering succeeded (in
that case the cell text is the deferred `'%s'` placeholder; an
insufficient-data series leaves literal text instead). -/
def tdPiece (col : Value) : String × Option GnuplotScript :=
  match col with
  | Value.int n =>
    ("<td style=\"padding: 3px 5px 3px 8px;text-align: right;\">" ++ pyStrInt n ++ "</td>",
     none)
  | Value.num q =>
    ("<td style=\"padding: 3px 5px 3px 8px;text-align: right;\">" ++ format2f q ++ "</td>",
     none)
  | Value.str s =>
    ("<td style=\"padding: 3px 5px 3px 8px;\">" ++ s ++ "</td>", none)
  | Value.series l =>
    match _render_sparkline l with
    | some g => ("<td style=\"padding: 0px; text-align: center;\">%s</td>", some g)
    | none => ("<td style=\"padding: 0px; text-align: center;\">(insufficient data)</td>", none)

/-- The pieces and images of one row's cells, left to right. -/
def cellsPieces : List Value → List String × List GnuplotScript
  | [] => ([], [])
  | c :: cs =>
    ((tdPiece c).1 :: (cellsPieces cs).1,
     (match (tdPiece c).2 with
      | some g => g :: (cellsPieces cs).2
      | none => (cellsPieces cs).2))

/-- The pieces and images of the data rows (`table[1:]`), top to bottom. -/
def rowsPieces : List (List Value) → List String × List GnuplotScript
  | [] => ([], [])
  | r :: rs =>
    ("<tr>" :: (cellsPieces r).1 ++ ("</tr>" :: (rowsPieces rs).1),
     (cellsPieces r).2 ++ (rowsPieces rs).2)

/-- The `<table ...>` opening tag (the adjacent string literals of the
source concatenated). -/
def tableOpen : String :=
  "<table cellspacing=\"1\" cellpadding=\"3\" border=\"1\"" ++
  "       style=\"table-layout:fixed;font-size:13px;" ++
  "              font-family:arial,sans,sans-serif;" ++
  "              border-collapse:collapse;border:1px " ++
  "              solid rgb(204,204,204)\">"

/-- The pieces and images of one named table: the `<h3>` heading when the
name is non-empty, then — when the table is truthy and has a truthy first
row (`if table and table[0]`) — the table markup with `<th>` cells for
`table[0]` and `<td>` cells for the remaining rows. -/
def headingPieces (heading : String) : List String :=
  if heading = "" then [] else ["<h3>" ++ heading ++ "</h3>"]

def tablePieces (heading : String) (table : List (List Value)) :
    List String × List GnuplotScript :=
  match table with
  | [] => (headingPieces heading, [])
  | hdr :: rows =>
    if hdr.isEmpty then (headingPieces heading, [])
    else
      (headingPieces heading ++ [tableOpen, "<thead>", "<tr>"] ++
        hdr.map (fun h => "<th>" ++ pyStr h ++ "</th>") ++
        ["</tr>", "</thead>", "<tbody>"] ++ (rowsPieces rows).1 ++ ["</tbody>", "</table>"],
       (rowsPieces rows).2)

/-- All tables, in the iteration order of `sorted(tables.iteritems())`. -/
def tablesPieces : List (String × List (List Value)) → List String × List GnuplotScript
  | [] => ([], [])
  | ht :: rest =>
    ((tablePieces ht.1 ht.2).1 ++ (tablesPieces rest).1,
     (tablePieces ht.1 ht.2).2 ++ (tablesPieces rest).2)

/-- The pieces of the optional preamble paragraph (`if preamble:` is false
for `None` and for an empty string). -/
def preamblePieces : Option String → List String
  | some p => if p = "" then [] else ["<p>" ++ p ++ "</p>"]
  | none => []

/-- The body `_send_email` hands to `_embed_images_to_mime`, and the
successfully rendered sparkline images in document order: the optional
(truthy) preamble paragraph, then each named table sorted by heading. -/
def sendEmailBody (preamble : Option String) (tables : List (String × List (List Value))) :
    String × List GnuplotScript :=
  let ts := tablesPieces (List.insertionSort (fun a b => a.1 ≤ b.1) tables)
  (joinSep "\n" (preamblePieces preamble ++ ts.1), ts.2)

/-- The conversion specifiers of a Python `%` format string: `specList cs`
collects, left to right, the character following each `%` that is not the
escape `%%`, and is `none` when the string ends in a lone `%`.  (In the
bodies built above every specifier is the one-character `%s`, so collecting
a single character is faithful; a width/flag character would surface here
as a non-`'s'` entry and make `formatOk` below fail, as the real
substitution does by raising or by consuming a mismatched argument
count.) -/
def specList : List Char → Option (List Char)
  | [] => some []
  | c :: rest =>
    if c = '%' then
      match rest with
      | [] => none
      | c2 :: rest2 =>
        if c2 = '%' then specList rest2
        else (specList rest2).map (fun l => c2 :: l)
    else specList rest

/-- A string is well-escaped when it parses with no conversion specifiers:
every `%` in it is part of a `%%` escape. -/
def wellEscaped (s : String) : Prop := specList s.data = some []

instance (s : String) : Decidable (wellEscaped s) :=
  inferInstanceAs (Decidable (specList s.data = some []))

/-- `html % tuple(image_tags)` in `_embed_images_to_mime` is well-defined
and pairs the i-th tag with the i-th placeholder exactly when the body
parses and its specifiers are exactly one `%s` per image. -/
def formatOk (html : String) (imageCount : ℕ) : Prop :=
  specList html.data = some (List.replicate imageCount 's')

instance (html : String) (n : ℕ) : Decidable (formatOk html n) :=
  inferInstanceAs (Decidable (specList html.data = some (List.replicate n 's')))

/-- The per-table hypothesis of the format-safety claim: a well-escaped
heading and well-escaped string cells (numeric and series cells render to
`%`-free text on their own). -/
def strCellOk : Value → Prop
  | Value.str s => wellEscaped s
  | _ => True

instance (c : Value) : Decidable (strCellOk c) := by
  cases c with
  | str s => exact inferInstanceAs (Decidable (wellEscaped s))
  | int n => exact isTrue trivial
  | num q => exact isTrue trivial
  | series l => exact isTrue trivial

/-- The preamble hypothesis: absent, or a well-escaped string. -/
def preambleOk : Option String → Prop
  | some p => wellEscaped p
  | none => True

instance (p : Option String) : Decidable (preambleOk p) := by
  cases p with
  | some s => exact inferInstanceAs (Decidable (wellEscaped s))
  | none => exact isTrue trivial

/-- Combined parse of a list of body pieces: the concatenation of each
piece's specifiers, `none` if any piece is malformed. -/
def piecesSpec : List String → Option (List Char)
  | [] => some []
  | p :: ps =>
    match specList p.data, piecesSpec ps with
    | some a, some b => some (a ++ b)
    | _, _ => none

/-! ## Theorems -/

/-- `pymax` of a nonempty list is one of its elements. -/
theorem pymax_mem : ∀ (l : List ℚ), l ≠ [] → pymax l ∈ l
  | [x], _ => List.mem_singleton_self x
  | x :: y :: rest, _ => by
    have ih := pymax_mem (y :: rest) (List.cons_ne_nil y rest)
    show max x (pymax (y :: rest)) ∈ x :: y :: rest
    rcases le_total x (pymax (y :: rest)) with h | h
    · rw [max_eq_right h]; exact List.mem_cons_of_mem x ih
    · rw [max_eq_left h]; exact List.mem_cons_self x _

/-- `pymax` bounds every element of the list. -/
theorem le_pymax : ∀ (l : List ℚ) (x : ℚ), x ∈ l → x ≤ pymax l
  | [], _, h => absurd h (List.not_mem_nil _)
  | [y], x, h => by
    rw [List.mem_singleton] at h
    rw [h]
    exact le_of_eq rfl
  | y :: z :: rest, x, h => by
    show x ≤ max y (pymax (z :: rest))
    rcases List.mem_cons.mp h with rfl | h2
    · exact le_max_left _ _
    · exact le_trans (le_pymax (z :: rest) x h2) (le_max_right _ _)

/-- Claim C1: `_process_past_data` returns exactly `W + 1` per-day indices,
the entry at position `j` being the index for the day at offset `W - j`
from the anchor (so position 0 is the oldest day and position `W` the
anchor day), for any filesystem contents. -/
theorem claim_C1_process_past_data {K : Type} [DecidableEq K] (fs : Store) (report : String)
    (end_date : ℤ) (W : ℕ) (keyfn : Record → K) :
    (_process_past_data fs report end_date W keyfn).length = W + 1 ∧
    ∀ j, j < W + 1 →
      (_process_past_data fs report end_date W keyfn)[j]? =
        some (day_index fs report keyfn (end_date - ((W - j : ℕ) : ℤ))) := by
  unfold _process_past_data
  constructor
  · rw [List.length_reverse, List.length_map, List.length_range]
  · intro j hj
    have hlen : j < ((List.range (W + 1)).map
        (fun i => day_index fs report keyfn (end_date - (i : ℕ)))).length := by
      rw [List.length_map, List.length_range]
      exact hj
    rw [List.getElem?_reverse hlen, List.length_map, List.length_range,
      List.getElem?_map, List.getElem?_range (show W + 1 - 1 - j < W + 1 by omega)]
    have : W + 1 - 1 - j = W - j := by omega
    rw [this]
    rfl

/-- Witness for C1 at a concrete input: an empty filesystem, window 1. -/
theorem claim_C1_witness :
    (0 < 1 + 1 ∧
      (_process_past_data (fun _ => none) "r" 0 1 (fun _ => (0 : ℕ)))[0]? =
        some (day_index (fun _ => none) "r" (fun _ => (0 : ℕ)) (0 - ((1 - 0 : ℕ) : ℤ)))) :=
  ⟨by decide,
   (claim_C1_process_past_data (fun _ => none) "r" 0 1 (fun _ => (0 : ℕ))).2 0 (by decide)⟩

/-- Claim C3: a series with fewer than 3 present samples yields the
"insufficient data" outcome `none`; no gnuplot script is built, so the
subprocess (started only after the script exists) is never invoked. -/
theorem claim_C3_render_insufficient (data : List (Option ℚ))
    (h : (data.filterMap id).length < 3) : _render_sparkline data = none := by
  unfold _render_sparkline
  simp [h]

/-- Witness for C3: a one-sample series. -/
theorem claim_C3_witness :
    (([some 1, none] : List (Option ℚ)).filterMap id).length < 3 ∧
      _render_sparkline [some 1, none] = none :=
  ⟨by decide, claim_C3_render_insufficient [some 1, none] (by decide)⟩

/-- Claim C4: with at least 3 present samples, the vertical range is
`ymin = -0.05 * m`, `ymax = 1.05 * m` where `m` is the maximum of the
present samples. -/
theorem claim_C4_render_yrange (data : List (Option ℚ))
    (h : 3 ≤ (data.filterMap id).length) :
    ∃ m : ℚ, m ∈ data.filterMap id ∧ (∀ x ∈ data.filterMap id, x ≤ m) ∧
      ∃ s, _render_sparkline data = some s ∧
        s.ymin = (-0.05 : ℚ) * m ∧ s.ymax = (1.05 : ℚ) * m := by
  refine ⟨pymax (data.filterMap id), ?_, ?_, ?_⟩
  · apply pymax_mem
    intro hnil
    rw [hnil] at h
    simp at h
  · exact fun x hx => le_pymax _ x hx
  · unfold _render_sparkline
    rw [if_neg (by omega)]
    exact ⟨_, rfl, rfl, rfl⟩

/-- Witness for C4 at a concrete three-sample series. -/
theorem claim_C4_witness :
    3 ≤ (([some 1, none, some 4, some 2] : List (Option ℚ)).filterMap id).length ∧
      ∃ m : ℚ, m ∈ ([some 1, none, some 4, some 2] : List (Option ℚ)).filterMap id ∧
        (∀ x ∈ ([some 1, none, some 4, some 2] : List (Option ℚ)).filterMap id, x ≤ m) ∧
        ∃ s, _render_sparkline [some 1, none, some 4, some 2] = some s ∧
          s.ymin = (-0.05 : ℚ) * m ∧ s.ymax = (1.05 : ℚ) * m :=
  ⟨by decide, claim_C4_render_yrange [some 1, none, some 4, some 2] (by decide)⟩

/-- Claim C5 counterexample: on the series `[1, 2, 3]` (all present) the
first sample is emitted as the plot point `(0, 1)` while the x-range is
`[1, 3]`, so a non-absent sample's plot point lies strictly left of the
range — the claim that every non-absent sample is emitted within the range
is false. -/
theorem claim_C5_counterexample :
    ∃ s, _render_sparkline [some 1, some 2, some 3] = some s ∧
      some ((0 : ℕ), (1 : ℚ)) ∈ s.dataLines ∧ ((0 : ℕ) : ℤ) < s.xmin := by
  refine ⟨{ dataLines := [some (0, 1), some (1, 2), some (2, 3)],
            ymax := 63/20, ymin := -3/20, xmin := 1, xmax := 3 },
    by with_unfolding_all decide, by decide, by decide⟩

/-- Claim C5 amended: with at least 3 present samples, the x-range is
`[1, length]`, absent samples are omitted entirely (an empty data line,
producing a gap, never a zero), and the sample at position `i` is emitted
at x-coordinate `i` — i.e. plot points sit at the 0-based positions
`0..length-1`, so the first sample's point falls outside the `[1, length]`
range (an off-by-one between `enumerate` and the x-range). -/
theorem claim_C5_amended (data : List (Option ℚ)) (h : 3 ≤ (data.filterMap id).length) :
    ∃ s, _render_sparkline data = some s ∧
      s.xmin = 1 ∧ s.xmax = (data.length : ℤ) ∧
      ∀ i : ℕ, s.dataLines[i]? = (data[i]?).map (fun o => o.map (fun v => (i, v))) := by
  unfold _render_sparkline
  rw [if_neg (by omega)]
  refine ⟨_, rfl, rfl, rfl, ?_⟩
  intro i
  simp only [List.getElem?_map, List.getElem?_enum]
  cases data[i]? with
  | none => rfl
  | some o => cases o <;> rfl

/-- Witness for the amended C5 on a concrete series with a gap. -/
theorem claim_C5_amended_witness :
    3 ≤ (([some 1, none, some 2, some 3] : List (Option ℚ)).filterMap id).length ∧
      ∃ s, _render_sparkline [some 1, none, some 2, some 3] = some s ∧
        s.xmin = 1 ∧ s.xmax = (([some 1, none, some 2, some 3] : List (Option ℚ)).length : ℤ) ∧
        ∀ i : ℕ, s.dataLines[i]? =
          (([some 1, none, some 2, some 3] : List (Option ℚ))[i]?).map
            (fun o => o.map (fun v => (i, v))) :=
  ⟨by decide, claim_C5_amended [some 1, none, some 2, some 3] (by decide)⟩

/-- Claim C7: saving a snapshot and loading it back with the same
(report, date) key returns exactly the saved records, for any prior
filesystem contents; loading a key whose file does not exist returns the
"no data" sentinel `none` without failing. -/
theorem claim_C7_roundtrip :
    (∀ (fs : Store) (data : List Record) (report : String) (d : ℤ),
      _get_past_data (_save_daily_data fs data report d) report d = some data) ∧
    (∀ (fs : Store) (report : String) (d : ℤ),
      fs (_get_data_filename report d) = none → _get_past_data fs report d = none) := by
  refine ⟨fun fs data report d => ?_, fun fs report d h => h⟩
  unfold _get_past_data _save_daily_data
  simp

/-- Witness for C7 at a concrete store, record list and key. -/
theorem claim_C7_witness :
    _get_past_data (_save_daily_data (fun _ => none) ih_demo_data "instance_hours" 7)
        "instance_hours" 7 = some ih_demo_data ∧
      ((fun _ => none : Store) (_get_data_filename "rpcs" 3) = none ∧
        _get_past_data (fun _ => none) "rpcs" 3 = none) :=
  ⟨claim_C7_roundtrip.1 (fun _ => none) ih_demo_data "instance_hours" 7,
   rfl, claim_C7_roundtrip.2 (fun _ => none) "rpcs" 3 rfl⟩

/-! ### The table shaper (claim C2) -/

/-- If every key of the row is listed in `order`, the decorate step
succeeds and pairs each value with its key's position. -/
theorem rowToKeyed_ok (order : List String) :
    ∀ (row : Record), (∀ kv ∈ row, kv.1 ∈ order) →
      rowToKeyed order row =
        Except.ok (row.map (fun kv => (order.indexOf kv.1, kv.2)))
  | [], _ => rfl
  | kv :: rest, h => by
    have hm : kv.1 ∈ order := h kv (List.mem_cons_self kv rest)
    have ih := rowToKeyed_ok order rest (fun p hp => h p (List.mem_cons_of_mem kv hp))
    unfold rowToKeyed
    rw [if_pos hm, ih]
    rfl

/-- If some key of the row is not listed in `order`, the decorate step
raises `ValueError`. -/
theorem rowToKeyed_error (order : List String) :
    ∀ (row : Record), (∃ kv ∈ row, kv.1 ∉ order) →
      rowToKeyed order row = Except.error PyError.valueError
  | [], h => absurd h (by simp)
  | kv :: rest, h => by
    unfold rowToKeyed
    by_cases hm : kv.1 ∈ order
    · rw [if_pos hm]
      have hrest : ∃ p ∈ rest, p.1 ∉ order := by
        rcases h with ⟨p, hp, hnot⟩
        rcases List.mem_cons.mp hp with rfl | hp2
        · exact absurd hm hnot
        · exact ⟨p, hp2, hnot⟩
      rw [rowToKeyed_error order rest hrest]
    · rw [if_neg hm]

/-- Every failure of the decorate step is a `ValueError`. -/
theorem rowToKeyed_error_value (order : List String) :
    ∀ (row : Record) (e : PyError), rowToKeyed order row = Except.error e →
      e = PyError.valueError
  | [], _, h => by simp [rowToKeyed] at h
  | kv :: rest, e, h => by
    unfold rowToKeyed at h
    by_cases hm : kv.1 ∈ order
    · rw [if_pos hm] at h
      cases hrec : rowToKeyed order rest with
      | ok l => rw [hrec] at h; simp at h
      | error e2 =>
        rw [hrec] at h
        cases h
        exact rowToKeyed_error_value order rest e hrec
    · rw [if_neg hm] at h
      cases h
      rfl

/-- In a row with pairwise-distinct keys, looking up the key of a member
binding yields that binding's value. -/
theorem rlookup_of_mem :
    ∀ (row : Record), (row.map Prod.fst).Nodup → ∀ kv ∈ row,
      rlookup row kv.1 = some kv.2
  | [], _, _, h => absurd h (List.not_mem_nil _)
  | p :: rest, hnd, kv, h => by
    rcases List.mem_cons.mp h with rfl | h2
    · unfold rlookup
      rw [if_pos rfl]
    · have hne : p.1 ≠ kv.1 := by
        intro heq
        have : kv.1 ∈ rest.map Prod.fst := List.mem_map_of_mem Prod.fst h2
        rw [List.map_cons, List.nodup_cons] at hnd
        exact hnd.1 (heq ▸ this)
      unfold rlookup
      rw [if_neg hne]
      exact rlookup_of_mem rest (by rw [List.map_cons, List.nodup_cons] at hnd; exact hnd.2) kv h2

/-- A duplicate-free list maps to `range` under its own `indexOf`. -/
theorem map_indexOf_self (order : List String) (hord : order.Nodup) :
    order.map (fun k => order.indexOf k) = List.range order.length := by
  apply List.ext_getElem (by simp)
  intro i h1 h2
  simp only [List.getElem_map, List.getElem_range]
  exact List.indexOf_getElem hord i (by simpa using h1)

/-- The aligned-output lemma for a single conformant row: sorting by key
position produces exactly the values of the columns of `order`, in order. -/
theorem convertRow_aligned (order : List String) (row : Record)
    (hord : order.Nodup) (hkeys : (row.map Prod.fst).Nodup)
    (hsub1 : ∀ k ∈ row.map Prod.fst, k ∈ order)
    (hsub2 : ∀ k ∈ order, k ∈ row.map Prod.fst) :
    convertRow order row =
      Except.ok (order.map (fun k => (rlookup row k).getD (Value.str ""))) := by
  have hkeyed := rowToKeyed_ok order row
    (fun kv hkv => hsub1 kv.1 (List.mem_map_of_mem Prod.fst hkv))
  have key : (sortByIdx (row.map (fun kv => (order.indexOf kv.1, kv.2)))).map Prod.snd =
      order.map (fun k => (rlookup row k).getD (Value.str "")) := ?_
  · unfold convertRow
    rw [hkeyed]
    show Except.ok ((sortByIdx (row.map (fun kv => (order.indexOf kv.1, kv.2)))).map Prod.snd) =
      Except.ok (order.map (fun k => (rlookup row k).getD (Value.str "")))
    rw [key]
  set K := row.map (fun kv => (order.indexOf kv.1, kv.2)) with hK
  set S := sortByIdx K with hS
  have permKS : S ~ K := List.perm_insertionSort idxLe K
  have keysperm : (row.map Prod.fst) ~ order :=
    (List.perm_ext_iff_of_nodup hkeys hord).2 (fun a => ⟨hsub1 a, hsub2 a⟩)
  have hrowlen : row.length = order.length := by simpa using keysperm.length_eq
  have hKfst : K.map Prod.fst = (row.map Prod.fst).map (fun k => order.indexOf k) := by
    rw [hK, List.map_map, List.map_map]
    rfl
  have hfstperm : S.map Prod.fst ~ List.range order.length := by
    calc S.map Prod.fst ~ K.map Prod.fst := permKS.map Prod.fst
      _ = (row.map Prod.fst).map (fun k => order.indexOf k) := hKfst
      _ ~ order.map (fun k => order.indexOf k) := keysperm.map _
      _ = List.range order.length := map_indexOf_self order hord
  have hsortedS : List.Sorted idxLe S := List.sorted_insertionSort idxLe K
  have hsorted : List.Sorted (· ≤ ·) (S.map Prod.fst) := List.pairwise_map.mpr hsortedS
  have hrange : List.Sorted (· ≤ ·) (List.range order.length) :=
    (List.pairwise_lt_range order.length).imp (fun h => le_of_lt h)
  have hfst : S.map Prod.fst = List.range order.length :=
    List.eq_of_perm_of_sorted hfstperm hsorted hrange
  have hSlen : S.length = order.length := by
    have := congrArg List.length hfst
    simpa using this
  have hgetfst : ∀ (j : ℕ) (hjS : j < S.length), (S.get ⟨j, hjS⟩).1 = j := by
    intro j hjS
    have hjo : j < order.length := by rwa [hSlen] at hjS
    have h1 : (S.map Prod.fst)[j]? = some j := by
      rw [hfst]
      exact List.getElem?_range hjo
    have h2 : (S.map Prod.fst)[j]? = some ((S.get ⟨j, hjS⟩).1) := by
      rw [List.getElem?_map, List.getElem?_eq_getElem hjS]
      rfl
    have h3 := h2.symm.trans h1
    simpa [List.get_eq_getElem] using h3
  apply List.ext_getElem?
  intro j
  by_cases hjS : j < S.length
  · have hjo : j < order.length := by rwa [hSlen] at hjS
    have hL : (S.map Prod.snd)[j]? = some ((S.get ⟨j, hjS⟩).2) := by
      rw [List.getElem?_map, List.getElem?_eq_getElem hjS]
      rfl
    have hR : (order.map (fun k => (rlookup row k).getD (Value.str "")))[j]? =
        some ((rlookup row (order.get ⟨j, hjo⟩)).getD (Value.str "")) := by
      rw [List.getElem?_map, List.getElem?_eq_getElem hjo]
      rfl
    rw [hL, hR]
    have hmemS : S.get ⟨j, hjS⟩ ∈ S := List.get_mem S j hjS
    have hmemK : S.get ⟨j, hjS⟩ ∈ K := permKS.mem_iff.mp hmemS
    rw [hK] at hmemK
    rcases List.mem_map.mp hmemK with ⟨kv, hkv, hkveq⟩
    have hkvidx : order.indexOf kv.1 = j := by
      have h5 := congrArg Prod.fst hkveq
      have h7 := hgetfst j hjS
      simp only [List.get_eq_getElem] at h7
      simpa [h7] using h5
    have hkvmem : kv.1 ∈ order := hsub1 kv.1 (List.mem_map_of_mem Prod.fst hkv)
    have hidxlt : order.indexOf kv.1 < order.length := List.indexOf_lt_length.2 hkvmem
    have hordj : order.get ⟨j, hjo⟩ = kv.1 := by
      have h3 : order.get ⟨order.indexOf kv.1, hidxlt⟩ = kv.1 := List.indexOf_get hidxlt
      have h4 : (⟨j, hjo⟩ : Fin order.length) = ⟨order.indexOf kv.1, hidxlt⟩ :=
        Fin.ext hkvidx.symm
      rw [h4]
      exact h3
    rw [hordj, rlookup_of_mem row hkeys kv hkv]
    have h6 := congrArg Prod.snd hkveq
    simpa using h6.symm
  · have hj2 : ¬ j < order.length := by rwa [hSlen] at hjS
    rw [List.getElem?_eq_none (by simpa using Nat.le_of_not_lt hjS),
        List.getElem?_eq_none (by simpa using Nat.le_of_not_lt hj2)]

/-- The loop of `_convert_table_rows_to_lists` on a fully conformant
table. -/
theorem convertRows_aligned (order : List String) :
    ∀ (table : List Record), order.Nodup →
      (∀ row ∈ table, (row.map Prod.fst).Nodup ∧
        (∀ k ∈ row.map Prod.fst, k ∈ order) ∧ (∀ k ∈ order, k ∈ row.map Prod.fst)) →
      convertRows order table =
        Except.ok (table.map (fun row => order.map (fun k => (rlookup row k).getD (Value.str ""))))
  | [], _, _ => rfl
  | r :: rs, hord, h => by
    have hr := h r (List.mem_cons_self r rs)
    have hrow := convertRow_aligned order r hord hr.1 hr.2.1 hr.2.2
    have ih := convertRows_aligned order rs hord (fun row hrowm => h row (List.mem_cons_of_mem r hrowm))
    unfold convertRows
    rw [hrow, ih]
    rfl

/-- The loop of `_convert_table_rows_to_lists` raises `ValueError` as soon
as any row has a key not listed in `order`. -/
theorem convertRows_error (order : List String) :
    ∀ (table : List Record), (∃ row ∈ table, ∃ kv ∈ row, kv.1 ∉ order) →
      convertRows order table = Except.error PyError.valueError
  | [], h => absurd h (by simp)
  | r :: rs, h => by
    unfold convertRows
    rcases h with ⟨row, hrowm, hbad⟩
    rcases List.mem_cons.mp hrowm with rfl | hrow2
    · have : convertRow order row = Except.error PyError.valueError := by
        unfold convertRow
        rw [rowToKeyed_error order row hbad]
      rw [this]
    · cases hcr : convertRow order r with
      | ok v => rw [convertRows_error order rs ⟨row, hrow2, hbad⟩]
      | error e =>
        have : e = PyError.valueError := by
          unfold convertRow at hcr
          cases hrk : rowToKeyed order r with
          | ok l => rw [hrk] at hcr; simp at hcr
          | error e2 =>
            rw [hrk] at hcr
            cases hcr
            exact rowToKeyed_error_value order r e hrk
        rw [this]

/-- Claim C2 counterexample: the record `{"a": 1}` lacks the field `"b"`
listed in the column order, yet `_convert_table_rows_to_lists` does not
fail — it silently returns a short (misaligned) data row. -/
theorem claim_C2_counterexample :
    ("b" ∈ (["a", "b"] : List String) ∧ rlookup [("a", Value.int 1)] "b" = none) ∧
      _convert_table_rows_to_lists [[("a", Value.int 1)]] ["a", "b"] =
        Except.ok [[Value.str "a", Value.str "b"], [Value.int 1]] :=
  ⟨⟨by decide, by decide⟩, by decide⟩

/-- Claim C2 amended: the shaper fails (with Python's `ValueError`, the
spec's `SchemaError`) exactly when some record carries a field *not listed*
in the column order; a record merely *lacking* a listed field does not fail
(it yields a shorter row).  On a fully conformant record set — every
record's field set coincides with the duplicate-free column order — the
first row equals the column order and each data row's value at position
`j` is that record's value for the `j`-th column name, rows in input
order. -/
theorem claim_C2_amended :
    (∀ (table : List Record) (order : List String),
      (∃ row ∈ table, ∃ kv ∈ row, kv.1 ∉ order) →
      _convert_table_rows_to_lists table order = Except.error PyError.valueError) ∧
    (∀ (table : List Record) (order : List String),
      order.Nodup →
      (∀ row ∈ table, (row.map Prod.fst).Nodup ∧
        (∀ k ∈ row.map Prod.fst, k ∈ order) ∧ (∀ k ∈ order, k ∈ row.map Prod.fst)) →
      _convert_table_rows_to_lists table order =
        Except.ok ((order.map Value.str) ::
          table.map (fun row => order.map (fun k => (rlookup row k).getD (Value.str ""))))) := by
  constructor
  · intro table order h
    unfold _convert_table_rows_to_lists
    rw [convertRows_error order table h]
  · intro table order hord h
    unfold _convert_table_rows_to_lists
    rw [convertRows_aligned order table hord h]

/-- Witness for the amended C2: a record with an unlisted field fails; a
conformant two-field table shapes to header plus aligned row. -/
theorem claim_C2_witness :
    _convert_table_rows_to_lists [[("x", Value.int 1)]] ["a"] =
        Except.error PyError.valueError ∧
      _convert_table_rows_to_lists [[("b", Value.int 2), ("a", Value.int 1)]] ["a", "b"] =
        Except.ok (((["a", "b"] : List String).map Value.str) ::
          [[("b", Value.int 2), ("a", Value.int 1)]].map
            (fun row => (["a", "b"] : List String).map
              (fun k => (rlookup row k).getD (Value.str "")))) :=
  ⟨claim_C2_amended.1 [[("x", Value.int 1)]] ["a"] (by decide),
   claim_C2_amended.2 [[("b", Value.int 2), ("a", Value.int 1)]] ["a", "b"]
     (by decide) (by decide)⟩

/-! ### The end-to-end instance-hours scenario (claim C6) -/

/-- Claim C6 counterexample: in the specified scenario (3 records for
"instance_hours" with values 10.0/5.0/2.0 and counts 100/50/10, no prior
history) the top data row's `% of total` cell is `10 / 17 * 100 = 1000/17`
(about 58.8), not the claimed 62.5. -/
theorem claim_C6_counterexample :
    ((email_instance_hours_emailed (fun _ => none) 0 ih_demo_data).toOption.bind
        (fun t => t[1]?)).bind (fun r => r[0]?) = some (Value.num (1000 / 17)) ∧
      (1000 / 17 : ℚ) ≠ (62.5 : ℚ) := by
  constructor
  · with_unfolding_all decide
  · with_unfolding_all decide

/-- Claim C6 amended: in that scenario the shaped-and-truncated table has
the `/a` row first (top by instance hours) with `% of total = 1000/17`
(≈58.8, not 62.5), `per 1k requests = 100.0`, and a 15-entry sparkline
series of 14 absent values plus the anchor day's own rate `0.1` — fewer
than 3 present samples, so the renderer yields the "insufficient data"
outcome. -/
theorem claim_C6_amended :
    email_instance_hours_emailed (fun _ => none) 0 ih_demo_data =
        Except.ok ((ORDER_ih.map Value.str) :: ih_demo_rows) ∧
      _render_sparkline (List.replicate 14 none ++ [some (1 / 10)]) = none := by
  constructor
  · with_unfolding_all decide
  · with_unfolding_all decide

/-! ### Truncation policy (claim C8) -/

/-- Claim C8 amended: each report emails the first `K` rows of the *shaped*
table (`K = 50` for instance-hours, `K = 75` for rpcs) — the slice is taken
after shaping and counts the header row, so the email carries the header
plus `min (K - 1) n` data rows for `n` records, not `min K n`. -/
theorem claim_C8_amended :
    (∀ (fs : Store) (date : ℤ) (data : List Record) (rows : List (List Value)),
      email_instance_hours_shaped fs date data =
          Except.ok ((ORDER_ih.map Value.str) :: rows) →
        email_instance_hours_emailed fs date data =
          Except.ok ((ORDER_ih.map Value.str) :: rows.take 49) ∧
        ((ORDER_ih.map Value.str) :: rows.take 49).length = min 50 (rows.length + 1) ∧
        (rows.take 49).length = min 49 rows.length) ∧
    (∀ (fs : Store) (date : ℤ) (data : List Record) (rows : List (List Value)),
      email_rpcs_shaped fs date data = Except.ok ((ORDER_rpc.map Value.str) :: rows) →
        email_rpcs_emailed fs date data =
          Except.ok ((ORDER_rpc.map Value.str) :: rows.take 74) ∧
        ((ORDER_rpc.map Value.str) :: rows.take 74).length = min 75 (rows.length + 1) ∧
        (rows.take 74).length = min 74 rows.length) := by
  constructor
  · intro fs date data rows h
    refine ⟨?_, ?_, ?_⟩
    · unfold email_instance_hours_emailed
      rw [h]
      rfl
    · simp only [List.length_cons, List.length_take]
      omega
    · simp only [List.length_take]
  · intro fs date data rows h
    refine ⟨?_, ?_, ?_⟩
    · unfold email_rpcs_emailed
      rw [h]
      rfl
    · simp only [List.length_cons, List.length_take]
      omega
    · simp only [List.length_take]

/-- Witness for the amended C8 at concrete inputs of both reports (an empty
query result: the shaped table is just the header row, and the emailed slice
keeps it). -/
theorem claim_C8_witness :
    (email_instance_hours_emailed (fun _ => none) 0 [] =
        Except.ok ((ORDER_ih.map Value.str) :: ([] : List (List Value)).take 49) ∧
      ((ORDER_ih.map Value.str) :: ([] : List (List Value)).take 49).length =
        min 50 (([] : List (List Value)).length + 1)) ∧
    (email_rpcs_emailed (fun _ => none) 0 [] =
        Except.ok ((ORDER_rpc.map Value.str) :: ([] : List (List Value)).take 74) ∧
      ((ORDER_rpc.map Value.str) :: ([] : List (List Value)).take 74).length =
        min 75 (([] : List (List Value)).length + 1)) := by
  have h1 := claim_C8_amended.1 (fun _ => none) 0 [] []
    (by with_unfolding_all decide)
  have h2 := claim_C8_amended.2 (fun _ => none) 0 [] []
    (by with_unfolding_all decide)
  exact ⟨⟨h1.1, h1.2.1⟩, ⟨h2.1, h2.2.1⟩⟩

/-- Claim C8 counterexample: with 50 records the instance-hours report
emails 49 data rows (the `data[:50]` slice counts the header row), not
`min 50 50 = 50` as claimed. -/
theorem claim_C8_counterexample :
    ih_many_data.length = 50 ∧
      (email_instance_hours_emailed (fun _ => none) 0 ih_many_data).map
        (fun t => t.length - 1) = Except.ok 49 ∧
      (49 : ℕ) ≠ min 50 ih_many_data.length := by
  refine ⟨by decide, ?_, by decide⟩
  with_unfolding_all decide

/-! ### The out-of-memory sparkline trichotomy (claim C9) -/

/-- A successful `dget` lookup comes from a member binding. -/
theorem dget_mem {K : Type} [DecidableEq K] :
    ∀ (m : List (K × Record)) (k : K) (r : Record), dget m k = some r → (k, r) ∈ m
  | [], _, _, h => by simp [dget] at h
  | p :: ps, k, r, h => by
    unfold dget at h
    by_cases hk : p.1 = k
    · rw [if_pos hk] at h
      have hr : p.2 = r := by injection h
      have hp : p = (k, r) := Prod.ext hk hr
      rw [← hp]
      exact List.mem_cons_self p ps
    · rw [if_neg hk] at h
      exact List.mem_cons_of_mem p (dget_mem ps k r h)

/-- The per-day sample of the out-of-memory loop, under the assumption that
every stored record has a numeric `count_`: the historical count if the
day's index contains the key, `0` if the index is non-empty but lacks the
key, absent if the index is empty. -/
theorem oom_sample_spec {K : Type} [DecidableEq K] (old_data : List (K × Record)) (key : K)
    (hcount : ∀ kr ∈ old_data, ((rlookup kr.2 "count_").bind toQ).isSome = true) :
    oom_sample old_data key =
      Except.ok (match dget old_data key with
        | some r => some (((rlookup r "count_").bind toQ).getD 0)
        | none => if old_data.isEmpty then none else some 0) := by
  cases hd : dget old_data key with
  | none =>
    unfold oom_sample
    rw [hd]
    cases he : old_data.isEmpty
    · simp [he]
    · simp [he]
  | some r =>
    have hmem := dget_mem old_data key r hd
    have hsome : ((rlookup r "count_").bind toQ).isSome = true := by
      simpa using hcount (key, r) hmem
    cases hlk : rlookup r "count_" with
    | none => rw [hlk] at hsome; simp at hsome
    | some v =>
      cases htq : toQ v with
      | none => rw [hlk] at hsome; simp [htq] at hsome
      | some q =>
        have hne : r.isEmpty = false := by
          cases r with
          | nil => simp [rlookup] at hlk
          | cons p ps => rfl
        unfold oom_sample
        rw [hd]
        simp [hne, hlk, htq]

/-- Claim C9: in the out-of-memory reports, for every row key and every
historical day, the sparkline sample is the day's stored `count_` when the
day's index contains the key, exactly `0` when the day's index is non-empty
but lacks the key, and absent (`None`) when the day's index is empty — the
zero-activity and no-data cases are never merged.  (Hypothesis: the stored
records carry numeric `count_` fields, as the report queries guarantee.) -/
theorem claim_C9_oom_sparkline {K : Type} [DecidableEq K]
    (hist : List (List (K × Record))) (key : K)
    (hcount : ∀ day ∈ hist, ∀ kr ∈ day, ((rlookup kr.2 "count_").bind toQ).isSome = true) :
    oom_sparkline_data hist key =
      Except.ok (hist.map (fun day =>
        match dget day key with
        | some r => some (((rlookup r "count_").bind toQ).getD 0)
        | none => if day.isEmpty then none else some 0)) := by
  induction hist with
  | nil => rfl
  | cons day rest ih =>
    have hday := oom_sample_spec day key (hcount day (List.mem_cons_self day rest))
    have hrest := ih (fun d hd => hcount d (List.mem_cons_of_mem day hd))
    unfold oom_sparkline_data
    rw [hday, hrest]
    rfl

/-- Witness for C9: a window with an empty day, a day containing the key,
and a day with data lacking the key, keyed by module name. -/
theorem claim_C9_witness :
    (∀ day ∈ ([[], [("m", [("count_", Value.int 7)])],
        [("x", [("count_", Value.int 5)])]] : List (List (String × Record))),
      ∀ kr ∈ day, ((rlookup kr.2 "count_").bind toQ).isSome = true) ∧
    oom_sparkline_data
        ([[], [("m", [("count_", Value.int 7)])], [("x", [("count_", Value.int 5)])]] :
          List (List (String × Record))) "m" =
      Except.ok [none, some 7, some 0] := by
  refine ⟨by decide, ?_⟩
  rw [claim_C9_oom_sparkline
    ([[], [("m", [("count_", Value.int 7)])], [("x", [("count_", Value.int 5)])]] :
      List (List (String × Record))) "m" (by decide)]
  with_unfolding_all decide

/-! ### Format-string lemmas (claim C10) -/

/-- String append concatenates the character data. -/
theorem strData_append (s t : String) : (s ++ t).data = s.data ++ t.data := by
  cases s
  cases t
  rfl

/-- Parsing a concatenation whose prefix parses cleanly: the prefix's
specifiers come first, and a malformed suffix keeps the whole malformed. -/
theorem specList_append (b : List Char) :
    ∀ (a : List Char) (la : List Char), specList a = some la →
      specList (a ++ b) = (specList b).map (fun l => la ++ l) := by
  intro a
  induction a using specList.induct with
  | case1 =>
    intro la h
    rw [show specList ([] : List Char) = some [] from rfl] at h
    injection h with h2
    subst h2
    cases hb : specList b <;> simp [hb]
  | case2 =>
    intro la h
    rw [show specList ['%'] = none from rfl] at h
    cases h
  | case3 rest2 ih =>
    intro la h
    have he : specList ('%' :: '%' :: rest2) = specList rest2 := by
      simp [specList]
    rw [he] at h
    have hc : ('%' :: '%' :: rest2) ++ b = '%' :: '%' :: (rest2 ++ b) := rfl
    rw [hc]
    have he2 : specList ('%' :: '%' :: (rest2 ++ b)) = specList (rest2 ++ b) := by
      simp [specList]
    rw [he2]
    exact ih la h
  | case4 c2 rest2 hne ih =>
    intro la h
    have he : specList ('%' :: c2 :: rest2) = (specList rest2).map (fun l => c2 :: l) := by
      simp [specList, hne]
    rw [he] at h
    cases hr : specList rest2 with
    | none => rw [hr] at h; cases h
    | some lr =>
      rw [hr] at h
      injection h with h2
      subst h2
      have hc : ('%' :: c2 :: rest2) ++ b = '%' :: c2 :: (rest2 ++ b) := rfl
      rw [hc]
      have he2 : specList ('%' :: c2 :: (rest2 ++ b)) =
          (specList (rest2 ++ b)).map (fun l => c2 :: l) := by
        simp [specList, hne]
      rw [he2, ih lr hr]
      cases specList b <;> simp
  | case5 c2 rest2 hne ih =>
    intro la h
    have he : specList (c2 :: rest2) = specList rest2 := by
      rw [specList.eq_def]
      simp [hne]
    rw [he] at h
    have hc : (c2 :: rest2) ++ b = c2 :: (rest2 ++ b) := rfl
    rw [hc]
    have he2 : specList (c2 :: (rest2 ++ b)) = specList (rest2 ++ b) := by
      rw [specList.eq_def]
      simp [hne]
    rw [he2]
    exact ih la h

/-- Well-escaped strings are closed under concatenation. -/
theorem wellEscaped_append {s t : String} (hs : wellEscaped s) (ht : wellEscaped t) :
    wellEscaped (s ++ t) := by
  unfold wellEscaped at *
  rw [strData_append, specList_append t.data s.data [] hs, ht]
  rfl

/-- A string with no `%` at all parses with no specifiers. -/
theorem specList_of_no_pct : ∀ (l : List Char), '%' ∉ l → specList l = some []
  | [], _ => rfl
  | c :: rest, h => by
    have hc : ¬ c = '%' := fun e => h (by subst e; exact List.mem_cons_self _ _)
    have hr : '%' ∉ rest := fun m => h (List.mem_cons_of_mem c m)
    have he : specList (c :: rest) = specList rest := by
      rw [specList.eq_def]
      simp [hc]
    rw [he]
    exact specList_of_no_pct rest hr

/-- A `%`-free string is well-escaped. -/
theorem wellEscaped_of_noPct (s : String) (h : '%' ∉ s.data) : wellEscaped s :=
  specList_of_no_pct s.data h

/-- `%`-freeness is closed under concatenation. -/
theorem noPct_append {s t : String} (hs : '%' ∉ s.data) (ht : '%' ∉ t.data) :
    '%' ∉ (s ++ t).data := by
  rw [strData_append]
  intro m
  rcases List.mem_append.mp m with m1 | m2
  · exact hs m1
  · exact ht m2

/-- No decimal digit character is a percent sign. -/
theorem digitChar_ne_pct : ∀ d, digitChar d ≠ '%'
  | 0 => by decide
  | 1 => by decide
  | 2 => by decide
  | 3 => by decide
  | 4 => by decide
  | 5 => by decide
  | 6 => by decide
  | 7 => by decide
  | 8 => by decide
  | n + 9 => by
    show ('9' : Char) ≠ '%'
    decide

/-- The digit rendering of a natural number contains no percent sign. -/
theorem natDigits_no_pct (n : ℕ) : '%' ∉ natDigits n := by
  induction n using Nat.strong_induction_on with
  | _ n ih =>
    unfold natDigits
    by_cases h : n < 10
    · rw [dif_pos h]
      intro m
      exact digitChar_ne_pct n (List.mem_singleton.mp m).symm
    · rw [dif_neg h]
      intro m
      rcases List.mem_append.mp m with m1 | m2
      · exact ih (n / 10) (Nat.div_lt_self (by omega) (by omega)) m1
      · exact digitChar_ne_pct (n % 10) (List.mem_singleton.mp m2).symm

/-- The int rendering contains no percent sign. -/
theorem pyStrInt_no_pct (n : ℤ) : '%' ∉ (pyStrInt n).data := by
  intro m
  have m2 : '%' ∈ (if n < 0 then ['-'] else []) ++ natDigits n.natAbs := m
  rcases List.mem_append.mp m2 with m1 | m3
  · by_cases h : n < 0
    · rw [if_pos h] at m1
      exact absurd (List.mem_singleton.mp m1) (by decide)
    · rw [if_neg h] at m1
      exact List.not_mem_nil _ m1
  · exact natDigits_no_pct _ m3

/-- The two-decimal float rendering contains no percent sign. -/
theorem format2f_no_pct (q : ℚ) : '%' ∉ (format2f q).data := by
  intro m
  have m2 : '%' ∈ ((if q < 0 then ['-'] else []) ++
      natDigits ((100 * q.num.natAbs) / q.den / 100)) ++
      ('.' :: [digitChar ((100 * q.num.natAbs) / q.den / 10 % 10),
               digitChar ((100 * q.num.natAbs) / q.den % 10)]) := m
  rcases List.mem_append.mp m2 with m3 | m4
  · rcases List.mem_append.mp m3 with m5 | m6
    · by_cases h : q < 0
      · rw [if_pos h] at m5
        exact absurd (List.mem_singleton.mp m5) (by decide)
      · rw [if_neg h] at m5
        exact List.not_mem_nil _ m5
    · exact natDigits_no_pct _ m6
  · rcases List.mem_cons.mp m4 with h1 | h2
    · exact absurd h1 (by decide)
    · rcases List.mem_cons.mp h2 with h3 | h4
      · exact digitChar_ne_pct _ h3.symm
      · rcases List.mem_cons.mp h4 with h5 | h6
        · exact digitChar_ne_pct _ h5.symm
        · exact List.not_mem_nil _ h6

/-- Joining `%`-free pieces with a `%`-free separator stays `%`-free. -/
theorem joinSep_no_pct (sep : String) (hsep : '%' ∉ sep.data) :
    ∀ (l : List String), (∀ s ∈ l, '%' ∉ s.data) → '%' ∉ (joinSep sep l).data
  | [], _ => fun m => List.not_mem_nil _ m
  | [s], h => h s (List.mem_singleton_self s)
  | s :: s2 :: rest, h => by
    show '%' ∉ ((s ++ sep) ++ joinSep sep (s2 :: rest)).data
    apply noPct_append
    · exact noPct_append (h s (List.mem_cons_self _ _)) hsep
    · exact joinSep_no_pct sep hsep (s2 :: rest)
        (fun t ht => h t (List.mem_cons_of_mem _ ht))

/-- Header-cell rendering is well-escaped whenever string cells are. -/
theorem pyStr_wellEscaped (v : Value) (hv : strCellOk v) : wellEscaped (pyStr v) := by
  cases v with
  | str s => exact hv
  | int n => exact wellEscaped_of_noPct _ (pyStrInt_no_pct n)
  | num q => exact wellEscaped_of_noPct _ (format2f_no_pct q)
  | series l =>
    apply wellEscaped_of_noPct
    show '%' ∉ (("[" ++ joinSep ", " (l.map (fun o => match o with
      | none => "None"
      | some q => format2f q))) ++ "]").data
    apply noPct_append
    · apply noPct_append
      · decide
      · apply joinSep_no_pct _ (by decide)
        intro s hs
        rcases List.mem_map.mp hs with ⟨o, ho, rfl⟩
        cases o with
        | none => decide
        | some q => exact format2f_no_pct q
    · decide

/-- A `<th>` piece parses with no specifiers. -/
theorem th_spec (h : Value) (hh : strCellOk h) :
    specList ("<th>" ++ pyStr h ++ "</th>").data = some [] :=
  wellEscaped_append (wellEscaped_append (by decide) (pyStr_wellEscaped h hh)) (by decide)

/-- A `<td>` piece parses to exactly one `%s` specifier when it carries a
rendered sparkline image, and to none otherwise. -/
theorem tdPiece_spec (col : Value) (hc : strCellOk col) :
    specList (tdPiece col).1.data =
      some (match (tdPiece col).2 with
        | some _ => ['s']
        | none => ([] : List Char)) := by
  cases col with
  | int n =>
    simp only [tdPiece]
    exact wellEscaped_append
      (wellEscaped_append (by decide) (wellEscaped_of_noPct _ (pyStrInt_no_pct n))) (by decide)
  | num q =>
    simp only [tdPiece]
    exact wellEscaped_append
      (wellEscaped_append (by decide) (wellEscaped_of_noPct _ (format2f_no_pct q))) (by decide)
  | str s =>
    simp only [tdPiece]
    exact wellEscaped_append (wellEscaped_append (by decide) hc) (by decide)
  | series l =>
    cases hr : _render_sparkline l with
    | some g =>
      simp only [tdPiece, hr]
      decide
    | none =>
      simp only [tdPiece, hr]
      decide

/-- Combined parses concatenate. -/
theorem piecesSpec_append : ∀ (xs ys : List String) (a b : List Char),
    piecesSpec xs = some a → piecesSpec ys = some b →
    piecesSpec (xs ++ ys) = some (a ++ b)
  | [], _, a, b, ha, hb => by
    rw [show piecesSpec [] = some [] from rfl] at ha
    injection ha with h
    subst h
    simpa using hb
  | p :: ps, ys, a, b, ha, hb => by
    cases hp : specList p.data with
    | none =>
      simp only [piecesSpec, hp] at ha
      exact Option.noConfusion ha
    | some lp =>
      cases hps : piecesSpec ps with
      | none =>
        simp only [piecesSpec, hp, hps] at ha
        exact Option.noConfusion ha
      | some lps =>
        simp only [piecesSpec, hp, hps] at ha
        injection ha with h
        subst h
        have ih := piecesSpec_append ps ys lps b hps hb
        show piecesSpec (p :: (ps ++ ys)) = some ((lp ++ lps) ++ b)
        simp only [piecesSpec, hp, ih]
        rw [List.append_assoc]

/-- Cell pieces parse to one `'s'` per rendered image. -/
theorem cellsPieces_spec : ∀ (cells : List Value), (∀ c ∈ cells, strCellOk c) →
    piecesSpec (cellsPieces cells).1 =
      some (List.replicate (cellsPieces cells).2.length 's')
  | [], _ => rfl
  | c :: cs, h => by
    have hc := tdPiece_spec c (h c (List.mem_cons_self _ _))
    have ih := cellsPieces_spec cs (fun x hx => h x (List.mem_cons_of_mem _ hx))
    cases ht : (tdPiece c).2 with
    | some g =>
      rw [ht] at hc
      simp only [cellsPieces, ht, piecesSpec, hc, ih, List.length_cons, List.replicate_succ]
      rfl
    | none =>
      rw [ht] at hc
      simp only [cellsPieces, ht, piecesSpec, hc, ih]
      rfl

/-- Row pieces parse to one `'s'` per rendered image. -/
theorem rowsPieces_spec : ∀ (rows : List (List Value)),
    (∀ row ∈ rows, ∀ c ∈ row, strCellOk c) →
    piecesSpec (rowsPieces rows).1 =
      some (List.replicate (rowsPieces rows).2.length 's')
  | [], _ => rfl
  | r :: rs, h => by
    have hr := cellsPieces_spec r (h r (List.mem_cons_self _ _))
    have ih := rowsPieces_spec rs (fun x hx => h x (List.mem_cons_of_mem _ hx))
    have h1 : piecesSpec ("</tr>" :: (rowsPieces rs).1) =
        some (List.replicate (rowsPieces rs).2.length 's') := by
      simp only [piecesSpec, ih, show specList ("</tr>" : String).data = some [] by decide]
      rfl
    have h2 := piecesSpec_append (cellsPieces r).1 ("</tr>" :: (rowsPieces rs).1) _ _ hr h1
    show piecesSpec ("<tr>" :: ((cellsPieces r).1 ++ ("</tr>" :: (rowsPieces rs).1))) =
      some (List.replicate ((cellsPieces r).2 ++ (rowsPieces rs).2).length 's')
    simp only [piecesSpec, h2, show specList ("<tr>" : String).data = some [] by decide]
    rw [List.length_append, List.replicate_add]
    rfl

/-- Header-row pieces parse with no specifiers. -/
theorem ths_spec : ∀ (hdr : List Value), (∀ c ∈ hdr, strCellOk c) →
    piecesSpec (hdr.map (fun h => "<th>" ++ pyStr h ++ "</th>")) = some []
  | [], _ => rfl
  | h :: hs, hok => by
    have h1 := th_spec h (hok h (List.mem_cons_self _ _))
    have ih := ths_spec hs (fun x hx => hok x (List.mem_cons_of_mem _ hx))
    simp only [List.map_cons, piecesSpec, h1, ih]
    rfl

/-- One named table's pieces parse to one `'s'` per rendered image. -/
theorem tablePieces_spec (heading : String) (table : List (List Value))
    (hh : wellEscaped heading) (hcells : ∀ row ∈ table, ∀ c ∈ row, strCellOk c) :
    piecesSpec (tablePieces heading table).1 =
      some (List.replicate (tablePieces heading table).2.length 's') := by
  have hhead : piecesSpec (headingPieces heading) = some [] := by
    unfold headingPieces
    by_cases he : heading = ""
    · rw [if_pos he]
      rfl
    · rw [if_neg he]
      have hw : specList ("<h3>" ++ heading ++ "</h3>").data = some [] :=
        wellEscaped_append (wellEscaped_append (by decide) hh) (by decide)
      simp only [piecesSpec, hw]
      rfl
  cases table with
  | nil =>
    simp only [tablePieces]
    rw [hhead]
    rfl
  | cons hdr rows =>
    by_cases hhdr : hdr.isEmpty
    · have heq : tablePieces heading (hdr :: rows) = (headingPieces heading, []) := by
        simp only [tablePieces]
        rw [if_pos hhdr]
      rw [heq, hhead]
      rfl
    · have heq : tablePieces heading (hdr :: rows) =
          (headingPieces heading ++ [tableOpen, "<thead>", "<tr>"] ++
            hdr.map (fun h => "<th>" ++ pyStr h ++ "</th>") ++
            ["</tr>", "</thead>", "<tbody>"] ++ (rowsPieces rows).1 ++
            ["</tbody>", "</table>"], (rowsPieces rows).2) := by
        simp only [tablePieces]
        rw [if_neg hhdr]
      rw [heq]
      have hths := ths_spec hdr (hcells hdr (List.mem_cons_self _ _))
      have hrows := rowsPieces_spec rows (fun r hr => hcells r (List.mem_cons_of_mem _ hr))
      have h1 := piecesSpec_append _ _ _ _ hrows
        (show piecesSpec ["</tbody>", "</table>"] = some [] by decide)
      have h2 := piecesSpec_append _ _ _ _
        (show piecesSpec ["</tr>", "</thead>", "<tbody>"] = some [] by decide) h1
      have h3 := piecesSpec_append _ _ _ _ hths h2
      have h4 := piecesSpec_append _ _ _ _
        (show piecesSpec [tableOpen, "<thead>", "<tr>"] = some [] by decide) h3
      have h5 := piecesSpec_append _ _ _ _ hhead h4
      simp only [List.append_assoc]
      simp only [List.append_assoc] at h5
      simpa using h5

/-- All tables' pieces parse to one `'s'` per rendered image. -/
theorem tablesPieces_spec : ∀ (ts : List (String × List (List Value))),
    (∀ ht ∈ ts, wellEscaped ht.1 ∧ ∀ row ∈ ht.2, ∀ c ∈ row, strCellOk c) →
    piecesSpec (tablesPieces ts).1 =
      some (List.replicate (tablesPieces ts).2.length 's')
  | [], _ => rfl
  | ht :: rest, h => by
    have h1 := tablePieces_spec ht.1 ht.2 (h ht (List.mem_cons_self _ _)).1
      (h ht (List.mem_cons_self _ _)).2
    have ih := tablesPieces_spec rest (fun x hx => h x (List.mem_cons_of_mem _ hx))
    have hall := piecesSpec_append _ _ _ _ h1 ih
    show piecesSpec ((tablePieces ht.1 ht.2).1 ++ (tablesPieces rest).1) =
      some (List.replicate ((tablePieces ht.1 ht.2).2 ++ (tablesPieces rest).2).length 's')
    rw [hall, List.length_append, List.replicate_add]

/-- Joining parsed pieces with newlines preserves the combined parse. -/
theorem specList_joinSep : ∀ (ps : List String) (l : List Char),
    piecesSpec ps = some l → specList (joinSep "\n" ps).data = some l
  | [], l, h => by
    rw [show piecesSpec [] = some [] from rfl] at h
    injection h with h2
    subst h2
    rfl
  | [s], l, h => by
    cases hs : specList s.data with
    | none =>
      simp only [piecesSpec, hs] at h
      exact Option.noConfusion h
    | some a =>
      simp only [piecesSpec, hs] at h
      injection h with h2
      subst h2
      show specList s.data = some (a ++ [])
      rw [hs]
      simp
  | s :: s2 :: rest, l, h => by
    have h3 : (match specList s.data, piecesSpec (s2 :: rest) with
        | some a, some b => some (a ++ b)
        | _, _ => none) = some l := h
    cases hs : specList s.data with
    | none =>
      rw [hs] at h3
      exact Option.noConfusion h3
    | some a =>
      cases hrest : piecesSpec (s2 :: rest) with
      | none =>
        rw [hs, hrest] at h3
        exact Option.noConfusion h3
      | some b =>
        rw [hs, hrest] at h3
        have h4 : some (a ++ b) = some l := h3
        injection h4 with h2
        subst h2
        have ih := specList_joinSep (s2 :: rest) b hrest
        show specList ((s ++ "\n") ++ joinSep "\n" (s2 :: rest)).data = some (a ++ b)
        rw [strData_append]
        have hpre : specList (s ++ "\n").data = some a := by
          rw [strData_append, specList_append ("\n" : String).data s.data a hs]
          rw [show specList ("\n" : String).data = some [] by decide]
          simp
        rw [specList_append (joinSep "\n" (s2 :: rest)).data (s ++ "\n").data a hpre, ih]
        rfl

/-- Claim C10: when the string cells, header values, headings and preamble
contain no unescaped `%` (every `%` is part of a `%%` escape — e.g. the
literal `'%% of total'` column header), the HTML body `_send_email` builds
contains exactly one `%s` conversion specifier per successfully rendered
sparkline image and no other specifier, so the deferred
`html % tuple(image_tags)` of `_embed_images_to_mime` is well-defined and
pairs the i-th image tag with the i-th sparkline placeholder in
table-iteration order; and (second conjunct) a cell with an unescaped `%`
("50% off") breaks the property, making the substitution step fail. -/
theorem claim_C10_format_safety :
    (∀ (preamble : Option String) (tables : List (String × List (List Value))),
      preambleOk preamble →
      (∀ ht ∈ tables, wellEscaped ht.1 ∧ ∀ row ∈ ht.2, ∀ c ∈ row, strCellOk c) →
      formatOk (sendEmailBody preamble tables).1 (sendEmailBody preamble tables).2.length) ∧
    ¬ formatOk (sendEmailBody none [("", [[Value.str "h"], [Value.str "50% off"]])]).1
      (sendEmailBody none [("", [[Value.str "h"], [Value.str "50% off"]])]).2.length := by
  constructor
  · intro preamble tables hpre htab
    have hsorted : ∀ ht ∈ List.insertionSort (fun a b => a.1 ≤ b.1) tables,
        wellEscaped ht.1 ∧ ∀ row ∈ ht.2, ∀ c ∈ row, strCellOk c := fun ht hm =>
      htab ht ((List.perm_insertionSort (fun a b => a.1 ≤ b.1) tables).mem_iff.mp hm)
    have hts := tablesPieces_spec _ hsorted
    have hpp : piecesSpec (preamblePieces preamble) = some [] := by
      cases preamble with
      | none => rfl
      | some p =>
        show piecesSpec (if p = "" then [] else ["<p>" ++ p ++ "</p>"]) = some []
        by_cases hp : p = ""
        · rw [if_pos hp]
          rfl
        · rw [if_neg hp]
          have hwp : specList ("<p>" ++ p ++ "</p>").data = some [] :=
            wellEscaped_append (wellEscaped_append (by decide) hpre) (by decide)
          simp only [piecesSpec, hwp]
          rfl
    have hall := piecesSpec_append _ _ _ _ hpp hts
    show formatOk
      (joinSep "\n" (preamblePieces preamble ++
        (tablesPieces (List.insertionSort (fun a b => a.1 ≤ b.1) tables)).1))
      (tablesPieces (List.insertionSort (fun a b => a.1 ≤ b.1) tables)).2.length
    unfold formatOk
    apply specList_joinSep
    simpa using hall
  · decide

/-- Witness for C10 at a concrete report-like table: a well-escaped
preamble, string cells, and one sparkline cell whose rendering succeeds
(one image, one `%s`). -/
theorem claim_C10_witness :
    (preambleOk (some "Daily numbers") ∧
      (∀ ht ∈ ([("T", [[Value.str "route", Value.str "trend"],
          [Value.str "/a", Value.series [some 1, some 2, some 3]]])] :
          List (String × List (List Value))),
        wellEscaped ht.1 ∧ ∀ row ∈ ht.2, ∀ c ∈ row, strCellOk c)) ∧
    formatOk (sendEmailBody (some "Daily numbers")
        [("T", [[Value.str "route", Value.str "trend"],
          [Value.str "/a", Value.series [some 1, some 2, some 3]]])]).1
      (sendEmailBody (some "Daily numbers")
        [("T", [[Value.str "route", Value.str "trend"],
          [Value.str "/a", Value.series [some 1, some 2, some 3]]])]).2.length :=
  ⟨⟨by decide, by decide⟩,
   claim_C10_format_safety.1 _ _ (by decide) (by decide)⟩

end EmailBq
